import Mathlib

/-!
# Verification of the sophon session coordinator

A shallow embedding of the core logic of the sophon repository:
the session store (store/store.go), the coordinator HTTP handlers
(server.go), the event hub (server/events.go), the per-node agent
heartbeat (agent/agent.go), the tmux pane/process discovery (tmux
package) and the transcript normalizer (transcript/transcript.go).

Go `time.Time` values are modelled as `Nat`, with `0` playing the role
of the zero time (`IsZero`); the SQLite layer stores the zero time as
NULL, so `stoppedAt = 0` means "active" exactly as `stopped_at IS NULL`
does in the SQL queries.  The SQLite table is modelled as a list of
session rows; `INSERT OR REPLACE` keyed on the primary key `id` is
modelled as remove-then-append.
-/

/-- A session row (store/store.go `Session`).  String fields keep their Go
names; all timestamps are `Nat` with `0` = Go's zero time. -/
structure Session where
  id : String
  tmuxPane : String
  cwd : String
  project : String
  nodeName : String
  startedAt : Nat
  stoppedAt : Nat
  lastActivityAt : Nat
  notificationType : String
  notifyTitle : String
  notifyMessage : String
  notifiedAt : Nat
  deriving Repr, DecidableEq

/-- `GetSession`: first row whose `id` matches (ids are unique in SQL, the
primary key). -/
def getSession (db : List Session) (id : String) : Option Session :=
  db.find? (fun s => s.id == id)

/-- `CreateSession`: `INSERT OR REPLACE` keyed by `id` — the old row (if
any) is removed and the new row inserted. -/
def createSession (db : List Session) (sess : Session) : List Session :=
  db.filter (fun s => s.id != sess.id) ++ [sess]

/-- `UpdateSession`: full replace by `id`; `ErrNotFound` when no row has
the id (RowsAffected = 0). -/
def updateSession (db : List Session) (sess : Session) : Except Unit (List Session) :=
  if db.any (fun s => s.id == sess.id) then
    .ok (db.map (fun s => if s.id == sess.id then sess else s))
  else
    .error ()

/-- Insertion into a list sorted descending by `key` (models SQL
`ORDER BY _ DESC`). -/
def insertDescBy (key : Session → Nat) (x : Session) : List Session → List Session
  | [] => [x]
  | y :: ys => if key y ≤ key x then x :: y :: ys else y :: insertDescBy key x ys

/-- Sort descending by `key` (models SQL `ORDER BY _ DESC`). -/
def sortDescBy (key : Session → Nat) : List Session → List Session
  | [] => []
  | x :: xs => insertDescBy key x (sortDescBy key xs)

/-- `ListActiveSessions`: `WHERE stopped_at IS NULL ORDER BY started_at
DESC`. -/
def listActiveSessions (db : List Session) : List Session :=
  sortDescBy (fun s => s.startedAt) (db.filter (fun s => s.stoppedAt == 0))

/-- `ListRecentSessions`: `WHERE stopped_at IS NOT NULL ORDER BY
stopped_at DESC LIMIT ?`. -/
def listRecentSessions (db : List Session) (limit : Nat) : List Session :=
  (sortDescBy (fun s => s.stoppedAt) (db.filter (fun s => s.stoppedAt != 0))).take limit

/-- Modelled from the spec: `ListActiveByNode(node)` — "filtered active
list, used by reconciliation".  The Go implementation of this store
method is not part of the sources (only its tests and callers are);
the spec and `TestListActiveSessionsByNode` fix its behaviour: active
sessions of one node, newest-started first. -/
def listActiveSessionsByNode (db : List Session) (node : String) : List Session :=
  sortDescBy (fun s => s.startedAt)
    (db.filter (fun s => s.stoppedAt == 0 && s.nodeName == node))

/-- Modelled from the spec: `StopMany(ids)` — "bulk stop, used by
reconciliation", with "each individual stop ... independent and
idempotent" (§5), so a stop only marks sessions that are still active.
The Go implementation is not part of the sources. -/
def stopSessions (db : List Session) (ids : List String) (now : Nat) : List Session :=
  db.map (fun s =>
    if ids.contains s.id && s.stoppedAt == 0 then { s with stoppedAt := now } else s)

/-- Modelled from the spec: `StopByPane(node, pane, exceptID)` —
"atomically marks `stopped_at` on every other active session sharing
(node, pane)", returning the stopped ids.  The Go implementation is not
part of the sources; `TestStopSessionsByPane` fixes its behaviour. -/
def stopSessionsByPane (db : List Session) (node pane exceptID : String) (now : Nat) :
    List Session × List String :=
  let hit := fun (s : Session) =>
    s.nodeName == node && s.tmuxPane == pane && s.id != exceptID && s.stoppedAt == 0
  (db.map (fun s => if hit s then { s with stoppedAt := now } else s),
   (db.filter hit).map (fun s => s.id))

/-! ### Go string primitives

Models of the Go standard-library string functions the sources use,
written as structural recursion over character lists so that every
definition evaluates inside the kernel. -/

/-- The ASCII whitespace recognized by Go's `unicode.IsSpace` on the
inputs at hand. -/
def isSpaceChar (c : Char) : Bool :=
  c == ' ' || c == '\t' || c == '\n' || c == '\r'

/-- Split around runs of characters satisfying `p`
(Go `strings.Fields`); `acc` holds the current field reversed. -/
def fieldsAux (p : Char → Bool) : List Char → List Char → List (List Char)
  | acc, [] => if acc.isEmpty then [] else [acc.reverse]
  | acc, c :: cs =>
    if p c then
      if acc.isEmpty then fieldsAux p [] cs
      else acc.reverse :: fieldsAux p [] cs
    else fieldsAux p (c :: acc) cs

/-- Go `strings.Fields`. -/
def goFields (s : String) : List String :=
  (fieldsAux isSpaceChar [] s.data).map String.mk

/-- Split at every occurrence of the character `sep`, keeping empty
segments (Go `strings.Split` with a one-character separator). -/
def splitCharAux (sep : Char) : List Char → List Char → List (List Char)
  | acc, [] => [acc.reverse]
  | acc, c :: cs =>
    if c == sep then acc.reverse :: splitCharAux sep [] cs
    else splitCharAux sep (c :: acc) cs

/-- Go `strings.Split(s, sep)` for a one-character separator. -/
def goSplitChar (s : String) (sep : Char) : List String :=
  (splitCharAux sep [] s.data).map String.mk

/-- Go `strings.TrimSpace`. -/
def goTrim (s : String) : String :=
  String.mk (((s.data.dropWhile isSpaceChar).reverse.dropWhile isSpaceChar).reverse)

/-- Accumulate a decimal value; fails on a non-digit. -/
def digitsVal : Nat → List Char → Option Nat
  | acc, [] => some acc
  | acc, c :: cs =>
    if c.isDigit then digitsVal (acc * 10 + (c.toNat - 48)) cs else none

/-- Go `strconv.Atoi`: optional sign, then at least one digit, nothing
else (overflow aside, which cannot occur on the inputs at hand). -/
def goAtoi (s : String) : Option Int :=
  match s.data with
  | [] => none
  | '+' :: rest =>
    match rest with
    | [] => none
    | _ => (digitsVal 0 rest).map (fun n => (n : Int))
  | '-' :: rest =>
    match rest with
    | [] => none
    | _ => (digitsVal 0 rest).map (fun n => -(n : Int))
  | l => (digitsVal 0 l).map (fun n => (n : Int))

/-- Does `pat` occur at the head of the character list? -/
def listMatches : List Char → List Char → Bool
  | [], _ => true
  | _ :: _, [] => false
  | p :: ps, c :: cs => p == c && listMatches ps cs

/-- Split a character list at the first occurrence of `pat`, returning
the part before the occurrence and the part after it. -/
def splitAtPattern (pat : List Char) : List Char → Option (List Char × List Char)
  | [] => if pat.isEmpty then some ([], []) else none
  | c :: rest =>
    if listMatches pat (c :: rest) then some ([], (c :: rest).drop pat.length)
    else
      match splitAtPattern pat rest with
      | some (pre, post) => some (c :: pre, post)
      | none => none

/-- Go `strings.Contains`. -/
def containsSubstr (s pat : String) : Bool :=
  (splitAtPattern pat.data s.data).isSome

/-- The loop of `strings.Split` for a multi-character separator: cut at
each leftmost occurrence.  Each round consumes at least one character,
so `fuel = length + 1` is enough. -/
def splitOnPatternAux (pat : List Char) : Nat → List Char → List (List Char)
  | 0, s => [s]
  | fuel + 1, s =>
    match splitAtPattern pat s with
    | none => [s]
    | some (pre, post) => pre :: splitOnPatternAux pat fuel post

/-- Go `strings.Split(s, sep)`. -/
def goSplitOn (s sep : String) : List String :=
  (splitOnPatternAux sep.data (s.data.length + 1) s.data).map String.mk

/-- Go `strings.Join`. -/
def joinWith (sep : String) : List String → String
  | [] => ""
  | [x] => x
  | x :: xs => x ++ sep ++ joinWith sep xs

/-- Go `strings.HasPrefix`. -/
def goHasPre (s pat : String) : Bool :=
  listMatches pat.data s.data

/-- `ProjectFromCwd`: trim trailing slashes, then keep the last two path
segments. -/
def projectFromCwd (cwd : String) : String :=
  let trimmed := (cwd.data.reverse.dropWhile (fun c => c == '/')).reverse
  if trimmed.isEmpty then "unknown"
  else
    let parts := (splitCharAux '/' [] trimmed).map String.mk
    match parts.reverse with
    | last :: second :: _ => second ++ "/" ++ last
    | [last] => last
    | [] => "unknown"

theorem mem_insertDescBy (key : Session → Nat) (x a : Session) (l : List Session) :
    a ∈ insertDescBy key x l ↔ a ∈ x :: l := by
  induction l with
  | nil => simp [insertDescBy]
  | cons y ys ih =>
    simp only [insertDescBy]
    by_cases h : key y ≤ key x
    · simp [h]
    · simp only [if_neg h, List.mem_cons, ih]
      tauto

theorem mem_sortDescBy (key : Session → Nat) (a : Session) (l : List Session) :
    a ∈ sortDescBy key l ↔ a ∈ l := by
  induction l with
  | nil => simp [sortDescBy]
  | cons x xs ih =>
    simp only [sortDescBy, mem_insertDescBy, List.mem_cons, ih]

/-! ## Event hub (server/events.go)

Each subscriber owns a Go channel of capacity 16; `Publish` snapshots the
subscriber set under the lock and then try-sends, dropping the event when
a buffer is full.  A channel's buffer is modelled as a list holding at
most `queueCapacity` events in send order; the non-blocking send is
`trySend`. -/

/-- A published event (server/events.go `Event`); `data` holds the raw
JSON payload as an opaque string. -/
structure HubEvent where
  type : String
  session : String
  data : String
  deriving Repr, DecidableEq

/-- The capacity of each subscriber channel (`make(chan Event, 16)`). -/
def queueCapacity : Nat := 16

/-- Non-blocking channel send (`select { case ch <- evt: default: }`):
append when the buffer has room, drop otherwise. -/
def trySend (q : List HubEvent) (e : HubEvent) : List HubEvent :=
  if q.length < queueCapacity then q ++ [e] else q

/-- The sentinel key for global (all-session) subscribers. -/
def globalKey : String := ""

/-- The hub: each subscriber is (subscription key, subscriber handle,
buffered queue); `nextId` supplies fresh handles (Go identifies
subscribers by channel value). -/
structure EventHub where
  subs : List (String × Nat × List HubEvent)
  nextId : Nat
  deriving Repr, DecidableEq

def emptyHub : EventHub := { subs := [], nextId := 0 }

/-- `Subscribe`: register a fresh empty queue under the key; returns the
subscriber handle used by the unsubscribe closure. -/
def subscribe (h : EventHub) (sessionID : String) : EventHub × Nat :=
  ({ subs := h.subs ++ [(sessionID, h.nextId, [])], nextId := h.nextId + 1 }, h.nextId)

/-- The unsubscribe closure returned by `Subscribe`: deletes the
subscriber; idempotent. -/
def unsubscribe (h : EventHub) (sessionID : String) (subId : Nat) : EventHub :=
  { h with subs := h.subs.filter (fun s => !(s.1 == sessionID && s.2.1 == subId)) }

/-- `Publish`: try-send to every session-specific and global subscriber;
a full buffer drops the event. -/
def publish (h : EventHub) (sessionID : String) (evt : HubEvent) : EventHub :=
  { h with subs := h.subs.map (fun s =>
      if s.1 == sessionID || s.1 == globalKey then (s.1, s.2.1, trySend s.2.2 evt) else s) }

/-- `SubscriberCount`. -/
def subscriberCount (h : EventHub) (sessionID : String) : Nat :=
  (h.subs.filter (fun s => s.1 == sessionID)).length

/-! ## Coordinator handlers (server.go)

The coordinator state is the session table, the agent registry and — to
observe the claims about event publication — the list of events
published so far, in order.  Handlers return the new state and the HTTP
status code. -/

/-- An event published by a handler (kind and the session it concerns). -/
structure EventMsg where
  type : String
  session : String
  deriving Repr, DecidableEq

/-- The coordinator's state: session store, agent registry
(node name → URL) and the stream of published events. -/
structure ServerState where
  sessions : List Session
  agents : List (String × String)
  published : List EventMsg
  deriving Repr, DecidableEq

/-- `AgentRegistry.Register`: upsert (node → url). -/
def registerAgent (ags : List (String × String)) (node url : String) :
    List (String × String) :=
  ags.filter (fun p => p.1 != node) ++ [(node, url)]

/-- The decoded body of `POST /api/sessions`. -/
structure CreateSessionReq where
  sessionID : String
  tmuxPane : String
  cwd : String
  nodeName : String
  deriving Repr, DecidableEq

/-- The session record built by `handleCreateSession`. -/
def newSessionOf (req : CreateSessionReq) (now : Nat) : Session :=
  { id := req.sessionID
    tmuxPane := req.tmuxPane
    cwd := req.cwd
    project := projectFromCwd req.cwd
    nodeName := req.nodeName
    startedAt := now
    stoppedAt := 0
    lastActivityAt := now
    notificationType := ""
    notifyTitle := ""
    notifyMessage := ""
    notifiedAt := 0 }

/-- `handleCreateSession`: store the new session, then (when the pane is
non-empty) dedup same-pane sessions, publishing a session_end for each
stopped one, and finally publish session_start.  Returns 201. -/
def handleCreateSession (st : ServerState) (req : CreateSessionReq) (now : Nat) :
    ServerState × Nat :=
  let sess := newSessionOf req now
  let db1 := createSession st.sessions sess
  if req.tmuxPane != "" then
    let r := stopSessionsByPane db1 req.nodeName req.tmuxPane req.sessionID now
    let evts := r.2.map (fun id => { type := "session_end", session := id : EventMsg })
    ({ st with
        sessions := r.1
        published := st.published ++ evts ++
          [{ type := "session_start", session := req.sessionID }] }, 201)
  else
    ({ st with
        sessions := db1
        published := st.published ++
          [{ type := "session_start", session := req.sessionID }] }, 201)

/-- `handleActivity` (turn-end): unknown session → 200 no-op; otherwise
advance `lastActivityAt` and publish an activity event. -/
def handleActivity (st : ServerState) (id : String) (now : Nat) : ServerState × Nat :=
  match getSession st.sessions id with
  | none => (st, 200)
  | some sess =>
    match updateSession st.sessions { sess with lastActivityAt := now } with
    | .error _ => (st, 500)
    | .ok db =>
      ({ st with
          sessions := db,
          published := st.published ++ [{ type := "activity", session := id }] }, 200)

/-- `handleDeleteSession` (session-end): unknown session → 200 no-op;
otherwise set `stoppedAt` and publish session_end. -/
def handleDeleteSession (st : ServerState) (id : String) (now : Nat) : ServerState × Nat :=
  match getSession st.sessions id with
  | none => (st, 200)
  | some sess =>
    match updateSession st.sessions { sess with stoppedAt := now } with
    | .error _ => (st, 500)
    | .ok db =>
      ({ st with
          sessions := db,
          published := st.published ++ [{ type := "session_end", session := id }] }, 200)

/-- `handleGetSession`: 404 for an unknown id, 200 with the record
otherwise. -/
def handleGetSession (st : ServerState) (id : String) : Nat × Option Session :=
  match getSession st.sessions id with
  | none => (404, none)
  | some sess => (200, some sess)

/-- `reconcileSessions`: stop every active session of the node whose
pane is non-empty and not in the alive set, publishing session_end for
each; sessions without pane info are skipped. -/
def reconcileSessions (st : ServerState) (nodeName : String) (alivePanes : List String)
    (now : Nat) : ServerState :=
  let sessions := listActiveSessionsByNode st.sessions nodeName
  let toStop := (sessions.filter
      (fun s => s.tmuxPane != "" && !alivePanes.contains s.tmuxPane)).map (fun s => s.id)
  if toStop.isEmpty then st
  else
    { st with
        sessions := stopSessions st.sessions toStop now
        published := st.published ++
          toStop.map (fun id => { type := "session_end", session := id : EventMsg }) }

/-- The decoded body of `POST /api/agents/register`; `alivePanes = none`
models the `*[]string` field being absent from the JSON body. -/
structure RegisterReq where
  nodeName : String
  url : String
  alivePanes : Option (List String)
  deriving Repr, DecidableEq

/-- `handleAgentRegister`: register the agent, then reconcile exactly
when the alive-panes field is present in the body. -/
def handleAgentRegister (st : ServerState) (req : RegisterReq) (now : Nat) :
    ServerState × Nat :=
  let st1 := { st with agents := registerAgent st.agents req.nodeName req.url }
  match req.alivePanes with
  | some panes => (reconcileSessions st1 req.nodeName panes now, 200)
  | none => (st1, 200)

/-! ## Agent heartbeat serialization (agent/agent.go)

`register` builds a `heartbeatPayload` whose `AlivePanes` field is left
nil when pane detection fails and set to a (possibly empty) slice when
it succeeds; the struct tag is `json:"alive_panes,omitempty"`, and Go's
`encoding/json` omits an `omitempty` slice field whenever its length is
zero — nil or not. -/

/-- The `AlivePanes` slice assigned in `register`: `none` (nil) when
`listClaudePanes` fails, the detected set (possibly empty, non-nil)
when it succeeds. -/
def registerAlivePanes (detection : Option (List String)) : Option (List String) :=
  detection

/-- Go `encoding/json` semantics of the `alive_panes,omitempty` tag: the
key is present in the serialized object iff the slice has non-zero
length. -/
def marshalOmitemptySlice (field : Option (List String)) : Option (List String) :=
  match field with
  | none => none
  | some xs => if xs.length == 0 then none else some xs

/-- The `alive_panes` member of the serialized heartbeat body as a
function of the detection outcome. -/
def heartbeatBodyAlivePanes (detection : Option (List String)) : Option (List String) :=
  marshalOmitemptySlice (registerAlivePanes detection)

/-! ## Pane/process discovery (tmux package)

`findClaudePanes` parses `tmux list-panes` output into pane-id → shell
PID, parses `ps -eo pid=,ppid=,comm=` output into process triples, and
keeps the panes whose shell PID has a descendant named `claude`
(breadth-first search over the children relation). -/

/-- A parsed `ps` row (tmux package `process`). -/
structure GoProc where
  pid : Int
  ppid : Int
  comm : String
  deriving Repr, DecidableEq

/-- One line of `parseProcesses`: trim, skip blanks, need at least three
fields, `Atoi` the first two. -/
def parseProcLine (line : String) : Option GoProc :=
  let line := goTrim line
  if line == "" then none
  else
    let fs := goFields line
    if fs.length < 3 then none
    else
      match (fs.get? 0).bind goAtoi, (fs.get? 1).bind goAtoi, fs.get? 2 with
      | some pid, some ppid, some comm => some { pid := pid, ppid := ppid, comm := comm }
      | _, _, _ => none

/-- `parseProcesses`: parse `ps -eo pid=,ppid=,comm=` output. -/
def parseProcesses (output : String) : List GoProc :=
  (goSplitChar output '\n').filterMap parseProcLine

/-- The children map built in `hasClaudeDescendant`: pids whose parent is
`p`, in input order. -/
def childrenOf (procs : List GoProc) (p : Int) : List Int :=
  (procs.filter (fun q => q.ppid == p)).map (fun q => q.pid)

/-- The comm map built in `hasClaudeDescendant`: for duplicate pids the
last row wins (Go map assignment); missing pid gives `""` (Go map zero
value). -/
def commByPid (procs : List GoProc) (p : Int) : String :=
  ((procs.filter (fun q => q.pid == p)).map (fun q => q.comm)).getLastD ""

/-- The BFS loop of `hasClaudeDescendant`.  The fuel bounds the number of
dequeues; in an acyclic process table each pid is enqueued at most once,
so `procs.length` dequeues suffice and the result equals the Go loop's
(which does not terminate on a cyclic table). -/
def bfsClaude (procs : List GoProc) : Nat → List Int → Bool
  | 0, _ => false
  | _, [] => false
  | fuel + 1, pid :: queue =>
    if commByPid procs pid == "claude" then true
    else bfsClaude procs fuel (queue ++ childrenOf procs pid)

/-- `hasClaudeDescendant`: does `paneShellPID` have a descendant process
whose command name is exactly `"claude"`? -/
def hasClaudeDescendant (paneShellPID : Int) (procs : List GoProc) : Bool :=
  bfsClaude procs procs.length (childrenOf procs paneShellPID)

/-- One line of `parseTmuxPanes`: trim, skip blanks, exactly two fields,
`Atoi` the second. -/
def parseTmuxPaneLine (line : String) : Option (String × Int) :=
  let line := goTrim line
  if line == "" then none
  else
    let fs := goFields line
    if fs.length != 2 then none
    else
      match fs.get? 0, (fs.get? 1).bind goAtoi with
      | some id, some pid => some (id, pid)
      | _, _ => none

/-- Go map assignment on an association list: replace the binding for the
key or append a fresh one. -/
def upsertPane (acc : List (String × Int)) (kv : String × Int) : List (String × Int) :=
  if acc.any (fun p => p.1 == kv.1) then
    acc.map (fun p => if p.1 == kv.1 then kv else p)
  else acc ++ [kv]

/-- `parseTmuxPanes`: parse `tmux list-panes -a -F "#{pane_id} #{pane_pid}"`
output into pane-id → shell PID (later lines overwrite). -/
def parseTmuxPanes (output : String) : List (String × Int) :=
  ((goSplitChar output '\n').filterMap parseTmuxPaneLine).foldl upsertPane []

/-- `findClaudePanes`: pane IDs whose shell PID has a claude
descendant.  Go returns a `map[string]bool` set; the list here carries
the same members. -/
def findClaudePanes (tmuxOutput psOutput : String) : List String :=
  let panes := parseTmuxPanes tmuxOutput
  let procs := parseProcesses psOutput
  (panes.filter (fun pv => hasClaudeDescendant pv.2 procs)).map (fun pv => pv.1)

/-! ## Transcript normalizer (transcript/transcript.go)

The embedding works over decoded JSONL entries: Go's `json.Unmarshal`
layer is abstracted so that each line is a `JsonlEntry` whose `message`
is `none` when the envelope would fail to unmarshal, and whose content
is a JSON string, an array of content blocks, or `invalid` (any other
shape, on which both Go unmarshal attempts fail).  A JSON object input
is kept as an association list of its fields, each value being `some`
its string content when it is a JSON string and `none` otherwise
(matching what `getString` can observe). -/

/-- A decoded JSON object: field name → string value when the value is a
JSON string, `none` otherwise. -/
abbrev JsonObj := List (String × Option String)

/-- The `content` of a `tool_result` block: Go decodes it into `any`. -/
inductive ResultContent where
  | null : ResultContent
  | str : String → ResultContent
  | arr : List (Option String) → ResultContent
  | other : ResultContent
  deriving Repr, DecidableEq

/-- `contentBlock`: a single block of a message's content array.
`input = none` models an absent `input` field (Go `len(b.Input) = 0`). -/
structure ContentBlock where
  type : String := ""
  id : String := ""
  text : String := ""
  name : String := ""
  input : Option JsonObj := none
  toolUseID : String := ""
  content : ResultContent := .null
  deriving Repr, DecidableEq

/-- `messageEnvelope`'s decoded content. -/
inductive MsgContent where
  | str : String → MsgContent
  | blocks : List ContentBlock → MsgContent
  | invalid : MsgContent
  deriving Repr, DecidableEq

/-- `messageEnvelope`. -/
structure MessageEnvelope where
  role : String := ""
  content : MsgContent := .invalid
  model : String := ""
  isApiErrorMessage : Bool := false
  deriving Repr, DecidableEq

/-- `jsonlEntry`; `message = none` models an envelope that fails to
unmarshal (including an absent field). -/
structure JsonlEntry where
  type : String := ""
  timestamp : String := ""
  message : Option MessageEnvelope := none
  isMeta : Bool := false
  deriving Repr, DecidableEq

/-- A displayable `Block`; `input` is the preserved structured input,
`toolUseID`/`toolInput` the unexported linking fields. -/
structure Block where
  type : String
  text : String
  summary : String := ""
  input : Option JsonObj := none
  toolUseID : String := ""
  toolInput : Option JsonObj := none
  deriving Repr, DecidableEq

/-- A display `Message`. -/
structure Message where
  role : String
  timestamp : String
  blocks : List Block
  deriving Repr, DecidableEq

/-- A parsed `Transcript`. -/
structure Transcript where
  messages : List Message
  deriving Repr, DecidableEq

def openTagChars : List Char := "<system-reminder>".data

def closeTagChars : List Char := "</system-reminder>".data

/-- The replacement loop of the regex
`(?s)<system-reminder>.*?</system-reminder>`: repeatedly delete the span
from the leftmost open tag to the nearest close tag after it.  Each
round consumes at least one character, so `fuel = length` is exact. -/
def stripLoop : Nat → List Char → List Char
  | 0, s => s
  | fuel + 1, s =>
    match splitAtPattern openTagChars s with
    | none => s
    | some (pre, afterOpen) =>
      match splitAtPattern closeTagChars afterOpen with
      | none => s
      | some (_, afterClose) => pre ++ stripLoop fuel afterClose

/-- `stripSystemReminders`: delete reminder spans, then trim space. -/
def stripSystemReminders (s : String) : String :=
  goTrim (String.mk (stripLoop s.data.length s.data))

/-- `toolsWithDisplayableInput`: the allow-list of tools whose input is
always preserved. -/
def toolsWithDisplayableInput (name : String) : Bool :=
  name == "AskUserQuestion"

/-- The body of `parseUserEntry`'s block loop: the flag records that a
non-tool-result displayable block was seen. -/
def userBlockStep (acc : Bool × List Block) (b : ContentBlock) : Bool × List Block :=
  if b.type == "text" then
    let text := stripSystemReminders b.text
    if text != "" then (true, acc.2 ++ [{ type := "text", text := text }])
    else acc
  else acc

/-- `parseUserEntry`. -/
def parseUserEntry (entry : JsonlEntry) : Option Message :=
  match entry.message with
  | none => none
  | some env =>
    if env.role != "user" then none
    else
      match env.content with
      | .str strContent =>
        let stripped := stripSystemReminders strContent
        if stripped == "" then none
        else some { role := "user", timestamp := entry.timestamp,
                    blocks := [{ type := "text", text := stripped }] }
      | .blocks blocks =>
        let r := blocks.foldl userBlockStep (false, [])
        if !r.1 || r.2.isEmpty then none
        else some { role := "user", timestamp := entry.timestamp, blocks := r.2 }
      | .invalid => none

/-- The body of `parseAssistantEntry`'s block loop; `hasExitPlanMode` is
the flag computed over the same message's blocks. -/
def assistantBlockStep (hasExitPlanMode : Bool) (acc : List Block) (b : ContentBlock) :
    List Block :=
  if b.type == "text" then
    let text := stripSystemReminders b.text
    if text != "" then acc ++ [{ type := "text", text := text }] else acc
  else if b.type == "tool_use" then
    let preserved :=
      if toolsWithDisplayableInput b.name && b.input.isSome then b.input
      else if hasExitPlanMode && b.name == "Write" && b.input.isSome then b.input
      else none
    acc ++ [{ type := "tool_use", text := b.name, input := preserved,
              toolUseID := b.id, toolInput := b.input }]
  else acc

/-- `parseAssistantEntry`.  Note that the `hasExitPlanMode` flag only
scans the blocks of this entry. -/
def parseAssistantEntry (entry : JsonlEntry) : Option Message :=
  match entry.message with
  | none => none
  | some env =>
    if env.role != "assistant" then none
    else if env.isApiErrorMessage || env.model == "<synthetic>" then none
    else
      match env.content with
      | .blocks blocks =>
        let hasExitPlanMode :=
          blocks.any (fun b => b.type == "tool_use" && b.name == "ExitPlanMode")
        let displayBlocks := blocks.foldl (assistantBlockStep hasExitPlanMode) []
        if displayBlocks.isEmpty then none
        else some { role := "assistant", timestamp := entry.timestamp,
                    blocks := displayBlocks }
      | _ => none

/-- `parseLine`: meta entries are skipped, then dispatch on entry type. -/
def parseLine (entry : JsonlEntry) : Option Message :=
  if entry.isMeta then none
  else if entry.type == "user" then parseUserEntry entry
  else if entry.type == "assistant" then parseAssistantEntry entry
  else none

/-- Go map assignment for the tool-result map. -/
def upsertResult (m : List (String × String)) (k v : String) : List (String × String) :=
  if m.any (fun p => p.1 == k) then m.map (fun p => if p.1 == k then (k, v) else p)
  else m ++ [(k, v)]

/-- Go map lookup for the tool-result map. -/
def lookupResult (m : List (String × String)) (k : String) : Option String :=
  (m.find? (fun p => p.1 == k)).map (fun p => p.2)

/-- `extractResultText`: string content verbatim, array content joins the
text fields with newlines, anything else gives `""`. -/
def extractResultText : ResultContent → String
  | .null => ""
  | .str s => s
  | .arr items => joinWith "\n" (items.filterMap id)
  | .other => ""

/-- `collectToolResults`: record tool-result texts of user entries —
including meta entries — keyed by `tool_use_id`. -/
def collectToolResults (entry : JsonlEntry) (results : List (String × String)) :
    List (String × String) :=
  if entry.type != "user" then results
  else
    match entry.message with
    | none => results
    | some env =>
      if env.role != "user" then results
      else
        match env.content with
        | .blocks blocks =>
          blocks.foldl (fun acc b =>
            if b.type == "tool_result" && b.toolUseID != "" then
              upsertResult acc b.toolUseID (extractResultText b.content)
            else acc) results
        | _ => results

/-- `truncate`: cap at `max` characters plus `"..."`.  Go counts and
slices bytes; on the ASCII arguments arising here the two coincide. -/
def truncate (s : String) (max : Nat) : String :=
  if s.data.length ≤ max then s else String.mk (s.data.take max) ++ "..."

/-- `shortenPath`: keep the last three path segments, then cap at 40. -/
def shortenPath (p : String) : String :=
  let parts := goSplitChar p '/'
  if parts.length ≤ 3 then truncate p 40
  else truncate (joinWith "/" (parts.drop (parts.length - 3))) 40

/-- The `getString` closure of `summarizeTool`: a field's string value,
`""` when missing or not a JSON string; Go map semantics keep the last
binding of a duplicated key. -/
def getString (fields : JsonObj) (key : String) : String :=
  (((fields.filter (fun p => p.1 == key)).map (fun p => p.2)).getLastD none).getD ""

/-- Go `strings.SplitN(s, sep, 3)`. -/
def splitN3 (s sep : String) : List String :=
  match goSplitOn s sep with
  | a :: b :: c :: rest => [a, b, joinWith sep (c :: rest)]
  | parts => parts

/-- The priority list of representative argument fields for namespaced
plugin (mcp) tools. -/
def mcpArgKeys : List String := ["query", "id", "name", "title", "issueId", "team"]

/-- `summarizeTool`: the dispatch table on tool names; a case whose
primary argument is empty falls through to the mcp/fallback logic. -/
def summarizeTool (name : String) (input : Option JsonObj) : String :=
  let fields := input.getD []
  let getStr := fun key => getString fields key
  let fromSwitch : Option String :=
    if name == "Read" then
      if getStr "file_path" != "" then
        some ("Read " ++ shortenPath (getStr "file_path")) else none
    else if name == "Bash" then
      if getStr "command" != "" then
        some ("Bash: " ++ truncate (getStr "command") 50) else none
    else if name == "Edit" then
      if getStr "file_path" != "" then
        some ("Edit " ++ shortenPath (getStr "file_path")) else none
    else if name == "Write" then
      if getStr "file_path" != "" then
        some ("Write " ++ shortenPath (getStr "file_path")) else none
    else if name == "Grep" then
      if getStr "pattern" != "" then
        some ("Grep «" ++ truncate (getStr "pattern") 40 ++ "»") else none
    else if name == "Glob" then
      if getStr "pattern" != "" then
        some ("Glob " ++ truncate (getStr "pattern") 40) else none
    else if name == "Task" then
      if getStr "description" != "" then
        some ("Task: " ++ truncate (getStr "description") 50) else none
    else if name == "WebSearch" then
      if getStr "query" != "" then
        some ("WebSearch «" ++ truncate (getStr "query") 40 ++ "»") else none
    else if name == "WebFetch" then
      if getStr "url" != "" then
        some ("WebFetch " ++ truncate (getStr "url") 50) else none
    else none
  match fromSwitch with
  | some s => s
  | none =>
    if goHasPre name "mcp__" then
      match splitN3 name "__" with
      | [_, _, toolName] =>
        match mcpArgKeys.find? (fun key => getStr key != "") with
        | some key => toolName ++ ": " ++ truncate (getStr key) 40
        | none => toolName
      | _ => name
    else name

/-- `attachSummaries`: fill each tool_use block's summary, appending an
error marker when its linked result contains `<tool_use_error>`. -/
def attachSummaries (messages : List Message) (toolResults : List (String × String)) :
    List Message :=
  messages.map (fun m =>
    { m with blocks := m.blocks.map (fun blk =>
        if blk.type != "tool_use" then blk
        else
          let base := summarizeTool blk.text blk.toolInput
          let summary :=
            match lookupResult toolResults blk.toolUseID with
            | some result =>
              if containsSubstr result "<tool_use_error>" then base ++ " (error)"
              else base
            | none => base
          { blk with summary := summary }) })

/-- One iteration of `Read`'s scanner loop: collect tool results from the
line (meta lines included), then emit the line's message if any. -/
def readStep (acc : List (String × String) × List Message) (line : JsonlEntry) :
    List (String × String) × List Message :=
  let results := collectToolResults line acc.1
  match parseLine line with
  | some m => (results, acc.2 ++ [m])
  | none => (results, acc.2)

/-- `Read` (minus file IO): scan the decoded lines, then attach
summaries. -/
def Read (lines : List JsonlEntry) : Transcript :=
  let r := lines.foldl readStep ([], [])
  { messages := attachSummaries r.2 r.1 }

/-- The inner loop of `LastAssistantText`: last text block of a block
list. -/
def lastTextBlock (blocks : List Block) : Option String :=
  (blocks.reverse.find? (fun b => b.type == "text")).map (fun b => b.text)

/-- `LastAssistantText`: the text of the last text block of the last
assistant message containing one, `""` if none. -/
def LastAssistantText (t : Transcript) : String :=
  match (t.messages.reverse.filter (fun m => m.role == "assistant")).findSome?
      (fun m => lastTextBlock m.blocks) with
  | some s => s
  | none => ""

/-! ## Claim theorems -/

/-- A coordinator state with one active session on pane `%7` of node
`n1`, used to exhibit the heartbeat-serialization bug. -/
def c1Sess : Session :=
  { id := "sA", tmuxPane := "%7", cwd := "/w", project := "w", nodeName := "n1",
    startedAt := 1, stoppedAt := 0, lastActivityAt := 1,
    notificationType := "", notifyTitle := "", notifyMessage := "", notifiedAt := 0 }

def c1State : ServerState := { sessions := [c1Sess], agents := [], published := [] }

/-- C1: the claim is that a successful detection always yields a present
`alive_panes` field, even for the empty set.  The code is wrong: the
field carries `json:"alive_panes,omitempty"`, and Go omits a zero-length
slice under `omitempty`, so a successful empty detection serializes with
the field absent — and the coordinator, receiving that body, skips
reconciliation (here: the dead session `sA` survives), whereas a
directly present-but-empty field would stop it.  Detection failure
(`none`) and a non-empty successful detection behave as claimed. -/
theorem c1_empty_alive_panes_omitted :
    heartbeatBodyAlivePanes (some []) = none ∧
    heartbeatBodyAlivePanes none = none ∧
    heartbeatBodyAlivePanes (some ["%0"]) = some ["%0"] ∧
    (handleAgentRegister c1State
        { nodeName := "n1", url := "http://a",
          alivePanes := heartbeatBodyAlivePanes (some []) } 5).1.sessions
      = [c1Sess] ∧
    (handleAgentRegister c1State
        { nodeName := "n1", url := "http://a", alivePanes := some [] } 5).1.sessions
      = [{ c1Sess with stoppedAt := 5 }] := by
  decide

/-- The cross-message log of `TestReadExitPlanModePreservesWriteInputCrossMessage`:
the Write invocation is in message 1, the ExitPlanMode signal only in
message 3. -/
def c2CrossLog : List JsonlEntry :=
  [ { type := "assistant", timestamp := "t1",
      message := some { role := "assistant", content := .blocks [
        { type := "text", text := "Here is the plan." },
        { type := "tool_use", id := "t1", name := "Write",
          input := some [("file_path", some "/tmp/plan.md"),
                         ("content", some "## Plan")] } ] } },
    { type := "user", timestamp := "t2", isMeta := true,
      message := some { role := "user", content := .blocks [
        { type := "tool_result", toolUseID := "t1", content := .str "ok" } ] } },
    { type := "assistant", timestamp := "t3",
      message := some { role := "assistant", content := .blocks [
        { type := "tool_use", id := "t2", name := "ExitPlanMode",
          input := some [] } ] } } ]

/-- The same-message variant (`TestReadExitPlanModePreservesWriteInput`). -/
def c2SameLog : List JsonlEntry :=
  [ { type := "assistant", timestamp := "t1",
      message := some { role := "assistant", content := .blocks [
        { type := "text", text := "Here is the plan." },
        { type := "tool_use", id := "t1", name := "Write",
          input := some [("file_path", some "/tmp/plan.md"),
                         ("content", some "## Plan")] },
        { type := "tool_use", id := "t2", name := "ExitPlanMode",
          input := some [] } ] } } ]

/-- C2: the claim (and the repository's own cross-message test) says the
Write block's input survives when the plan-exit signal is anywhere in
the log.  The code computes its `hasExitPlanMode` flag per message, so
on the cross-message log the Write block of message 1 loses its input
(`none` below), while on the same-message log it is preserved. -/
theorem c2_cross_message_write_input_dropped :
    ((Read c2CrossLog).messages.map (fun m => m.blocks.map (fun b => b.input))) =
      [[none, none], [none]] ∧
    ((Read c2SameLog).messages.map (fun m => m.blocks.map (fun b => b.input))) =
      [[none,
        some [("file_path", some "/tmp/plan.md"), ("content", some "## Plan")],
        none]] := by
  exact ⟨rfl, rfl⟩

/-- C3: the claim says the wrapped command name `.claude-unwrapp` is
detected; the code compares the command name with `"claude"` only, so
the wrapped form is missed (first conjunct refutes the claim and the
repository's own `TestHasClaudeDescendantWrappedBinary`), while a plain
`claude` grandchild is found, and `findClaudePanes` consequently keeps
only the pane whose descendant is literally named `claude`. -/
theorem c3_wrapped_comm_not_detected :
    hasClaudeDescendant 100
        [{ pid := 100, ppid := 1, comm := "fish" },
         { pid := 200, ppid := 100, comm := ".claude-unwrapp" }] = false ∧
    hasClaudeDescendant 100
        [{ pid := 100, ppid := 1, comm := "bash" },
         { pid := 200, ppid := 100, comm := "node" },
         { pid := 300, ppid := 200, comm := "claude" },
         { pid := 400, ppid := 1, comm := "unrelated" }] = true ∧
    findClaudePanes "%0 100\n%1 200\n"
        "  100 1 fish\n  150 100 .claude-unwrapp\n  200 1 bash\n  250 200 claude\n"
      = ["%1"] := by
  exact ⟨rfl, rfl, rfl⟩

/-- The 20 distinct events published in the C6 scenario. -/
def c6Events : List HubEvent :=
  [ ⟨"activity", "s1", "e01"⟩, ⟨"activity", "s1", "e02"⟩, ⟨"activity", "s1", "e03"⟩,
    ⟨"activity", "s1", "e04"⟩, ⟨"activity", "s1", "e05"⟩, ⟨"activity", "s1", "e06"⟩,
    ⟨"activity", "s1", "e07"⟩, ⟨"activity", "s1", "e08"⟩, ⟨"activity", "s1", "e09"⟩,
    ⟨"activity", "s1", "e10"⟩, ⟨"activity", "s1", "e11"⟩, ⟨"activity", "s1", "e12"⟩,
    ⟨"activity", "s1", "e13"⟩, ⟨"activity", "s1", "e14"⟩, ⟨"activity", "s1", "e15"⟩,
    ⟨"activity", "s1", "e16"⟩, ⟨"activity", "s1", "e17"⟩, ⟨"activity", "s1", "e18"⟩,
    ⟨"activity", "s1", "e19"⟩, ⟨"activity", "s1", "e20"⟩ ]

/-- A hub with one subscriber to `s1` that consumed nothing, after the 20
consecutive publishes. -/
def c6Hub : EventHub :=
  c6Events.foldl (fun h e => publish h "s1" e) (subscribe emptyHub "s1").1

/-- C6: the queue capacity is 16; after 20 publishes to a non-consuming
subscriber the queue holds exactly the first 16 events in publish order
(the rest silently dropped, `publish` being total — never blocking);
after unsubscribing, a further publish is a no-op and the subscriber
count is 0. -/
theorem c6_queue_capacity_drop :
    queueCapacity = 16 ∧
    c6Hub.subs = [("s1", 0, c6Events.take 16)] ∧
    unsubscribe c6Hub "s1" 0 = { subs := [], nextId := 1 } ∧
    publish { subs := [], nextId := 1 } "s1" ⟨"activity", "s1", "e21"⟩ =
      { subs := [], nextId := 1 } ∧
    subscriberCount { subs := [], nextId := 1 : EventHub } "s1" = 0 := by
  refine ⟨rfl, by decide, by decide, by decide, by decide⟩

/-- An entry flagged as meta. -/
def isMetaEntry (e : JsonlEntry) : Bool := e.isMeta

/-- A non-meta user entry whose content is solely tool-result blocks. -/
def isToolResultOnlyUser (e : JsonlEntry) : Bool :=
  !e.isMeta && e.type == "user" &&
    (match e.message with
     | some env =>
       env.role == "user" &&
         (match env.content with
          | .blocks bs => bs.all (fun b => b.type == "tool_result")
          | _ => false)
     | none => false)

/-- A non-meta assistant entry whose only content is thinking blocks. -/
def isThinkingOnlyAssistant (e : JsonlEntry) : Bool :=
  !e.isMeta && e.type == "assistant" &&
    (match e.message with
     | some env =>
       env.role == "assistant" &&
         (match env.content with
          | .blocks bs => bs.all (fun b => b.type == "thinking")
          | _ => false)
     | none => false)

theorem userFold_no_text (bs : List ContentBlock) (acc : Bool × List Block)
    (h : ∀ b ∈ bs, (b.type == "text") = false) :
    bs.foldl userBlockStep acc = acc := by
  induction bs generalizing acc with
  | nil => rfl
  | cons b rest ih =>
    have hb := h b (List.mem_cons_self _ _)
    simp only [List.foldl_cons, userBlockStep, hb, Bool.false_eq_true, if_false]
    exact ih acc (fun x hx => h x (List.mem_cons_of_mem _ hx))

theorem assistantFold_skips (flag : Bool) (bs : List ContentBlock) (acc : List Block)
    (h : ∀ b ∈ bs, (b.type == "text") = false ∧ (b.type == "tool_use") = false) :
    bs.foldl (assistantBlockStep flag) acc = acc := by
  induction bs generalizing acc with
  | nil => rfl
  | cons b rest ih =>
    have hb := h b (List.mem_cons_self _ _)
    simp only [List.foldl_cons, assistantBlockStep, hb.1, hb.2, Bool.false_eq_true,
      if_false]
    exact ih acc (fun x hx => h x (List.mem_cons_of_mem _ hx))

theorem parseLine_none_of_meta (e : JsonlEntry) (h : isMetaEntry e = true) :
    parseLine e = none := by
  simp [parseLine, show e.isMeta = true from h]

theorem parseLine_none_of_toolResultOnly (e : JsonlEntry)
    (h : isToolResultOnlyUser e = true) : parseLine e = none := by
  obtain ⟨etype, ets, emsg, emeta⟩ := e
  rcases emsg with _ | env
  · simp [isToolResultOnlyUser] at h
  · obtain ⟨role, content, model, apiErr⟩ := env
    rcases content with s | bs | _
    · simp [isToolResultOnlyUser] at h
    · simp only [isToolResultOnlyUser, Bool.and_eq_true, Bool.not_eq_true',
        beq_iff_eq, List.all_eq_true] at h
      obtain ⟨⟨hmeta, htype⟩, hrole, hall⟩ := h
      subst hmeta htype hrole
      have hstep : bs.foldl userBlockStep (false, []) = (false, []) :=
        userFold_no_text bs (false, []) (fun b hb => by
          have hb2 := hall b hb
          simp only [beq_iff_eq] at hb2
          simp [hb2])
      simp [parseLine, parseUserEntry, hstep]
    · simp [isToolResultOnlyUser] at h

theorem parseLine_none_of_thinkingOnly (e : JsonlEntry)
    (h : isThinkingOnlyAssistant e = true) : parseLine e = none := by
  obtain ⟨etype, ets, emsg, emeta⟩ := e
  rcases emsg with _ | env
  · simp [isThinkingOnlyAssistant] at h
  · obtain ⟨role, content, model, apiErr⟩ := env
    rcases content with s | bs | _
    · simp [isThinkingOnlyAssistant] at h
    · simp only [isThinkingOnlyAssistant, Bool.and_eq_true, Bool.not_eq_true',
        beq_iff_eq, List.all_eq_true] at h
      obtain ⟨⟨hmeta, htype⟩, hrole, hall⟩ := h
      subst hmeta htype hrole
      have hstep : ∀ flag, bs.foldl (assistantBlockStep flag) [] = [] :=
        fun flag => assistantFold_skips flag bs [] (fun b hb => by
          have hb2 := hall b hb
          simp only [beq_iff_eq] at hb2
          simp [hb2])
      cases apiErr with
      | false =>
        by_cases hmod : model = "<synthetic>"
        · simp [parseLine, parseAssistantEntry, hmod]
        · simp [parseLine, parseAssistantEntry, hmod, hstep]
      | true => simp [parseLine, parseAssistantEntry]
    · simp [isThinkingOnlyAssistant] at h

theorem parseLine_eq_none_of_skippable (e : JsonlEntry)
    (h : (isMetaEntry e || isToolResultOnlyUser e || isThinkingOnlyAssistant e) = true) :
    parseLine e = none := by
  simp only [Bool.or_eq_true] at h
  rcases h with (h | h) | h
  · exact parseLine_none_of_meta e h
  · exact parseLine_none_of_toolResultOnly e h
  · exact parseLine_none_of_thinkingOnly e h

theorem readFold_msgs_of_none (lines : List JsonlEntry)
    (h : ∀ e ∈ lines, parseLine e = none) :
    ∀ r msgs, (lines.foldl readStep (r, msgs)).2 = msgs := by
  induction lines with
  | nil => intro r msgs; rfl
  | cons e rest ih =>
    intro r msgs
    have he := h e (List.mem_cons_self _ _)
    simp only [List.foldl_cons, readStep, he]
    exact ih (fun x hx => h x (List.mem_cons_of_mem _ hx)) _ _

/-- C7: a log each of whose entries is either flagged meta, a pure
tool-result user entry, or a thinking-only assistant entry produces zero
display messages. -/
theorem c7_skippable_entries_yield_no_messages (log : List JsonlEntry)
    (h : ∀ e ∈ log,
      (isMetaEntry e || isToolResultOnlyUser e || isThinkingOnlyAssistant e) = true) :
    (Read log).messages = [] := by
  have hall : ∀ e ∈ log, parseLine e = none :=
    fun e he => parseLine_eq_none_of_skippable e (h e he)
  show attachSummaries (List.foldl readStep ([], []) log).2
      (List.foldl readStep ([], []) log).1 = []
  rw [readFold_msgs_of_none log hall [] []]
  rfl

/-- The concrete C7 log: one pure tool-result user entry, one
thinking-only assistant entry, one meta entry. -/
def c7Log : List JsonlEntry :=
  [ { type := "user", timestamp := "t0",
      message := some { role := "user", content := .blocks [
        { type := "tool_result", toolUseID := "x", content := .str "ok" } ] } },
    { type := "assistant", timestamp := "t1",
      message := some { role := "assistant", content := .blocks [
        { type := "thinking", text := "hmm" } ] } },
    { type := "user", timestamp := "t2", isMeta := true,
      message := some { role := "user", content := .str "caveat" } } ]

theorem c7_witness : (Read c7Log).messages = [] :=
  c7_skippable_entries_yield_no_messages c7Log (by decide)

/-- C8: for a session ID absent from the store, the lifecycle-ingestion
handlers turn-end (`handleActivity`) and session-end
(`handleDeleteSession`) answer 200 and leave the state untouched, while
the read handler `handleGetSession` answers 404. -/
theorem c8_unknown_session_semantics (st : ServerState) (id : String) (now : Nat)
    (h : getSession st.sessions id = none) :
    handleActivity st id now = (st, 200) ∧
    handleDeleteSession st id now = (st, 200) ∧
    handleGetSession st id = (404, none) := by
  refine ⟨?_, ?_, ?_⟩ <;>
    simp [handleActivity, handleDeleteSession, handleGetSession, h]

/-- The single session known to the C8 witness store. -/
def c8Sess : Session :=
  { id := "known", tmuxPane := "%1", cwd := "/w", project := "w", nodeName := "n",
    startedAt := 1, stoppedAt := 0, lastActivityAt := 1,
    notificationType := "", notifyTitle := "", notifyMessage := "", notifiedAt := 0 }

/-- The store used in the C8 witness: it knows session `known` only. -/
def c8State : ServerState :=
  { sessions := [c8Sess], agents := [], published := [] }

theorem c8_witness :
    handleActivity c8State "missing" 9 = (c8State, 200) ∧
    handleDeleteSession c8State "missing" 9 = (c8State, 200) ∧
    handleGetSession c8State "missing" = (404, none) :=
  c8_unknown_session_semantics c8State "missing" 9 (by decide)

/-- C9: a stored session has `stoppedAt` unset exactly when it is in the
active list and absent from the recent list — the two queries partition
the table, whatever the limit. -/
theorem c9_active_recent_partition (db : List Session) (limit : Nat) (s : Session)
    (hs : s ∈ db) :
    s.stoppedAt = 0 ↔ (s ∈ listActiveSessions db ∧ s ∉ listRecentSessions db limit) := by
  constructor
  · intro h0
    refine ⟨?_, ?_⟩
    · unfold listActiveSessions
      rw [mem_sortDescBy]
      exact List.mem_filter.mpr ⟨hs, by simp [h0]⟩
    · intro hmem
      unfold listRecentSessions at hmem
      have h1 := List.take_subset _ _ hmem
      rw [mem_sortDescBy] at h1
      have h2 := (List.mem_filter.mp h1).2
      simp [h0] at h2
  · rintro ⟨ha, _⟩
    unfold listActiveSessions at ha
    rw [mem_sortDescBy] at ha
    have h2 := (List.mem_filter.mp ha).2
    simpa using h2

/-- The two-session store of the C9 witness. -/
def c9Active : Session :=
  { id := "act", tmuxPane := "%1", cwd := "/a", project := "a", nodeName := "n",
    startedAt := 3, stoppedAt := 0, lastActivityAt := 3,
    notificationType := "", notifyTitle := "", notifyMessage := "", notifiedAt := 0 }

def c9Stopped : Session :=
  { id := "old", tmuxPane := "%2", cwd := "/b", project := "b", nodeName := "n",
    startedAt := 1, stoppedAt := 2, lastActivityAt := 2,
    notificationType := "", notifyTitle := "", notifyMessage := "", notifiedAt := 0 }

theorem c9_witness :
    c9Active.stoppedAt = 0 ↔
      (c9Active ∈ listActiveSessions [c9Active, c9Stopped] ∧
       c9Active ∉ listRecentSessions [c9Active, c9Stopped] 20) :=
  c9_active_recent_partition [c9Active, c9Stopped] 20 c9Active (by decide)

/-- The dedup mark applied by `stopSessionsByPane` inside
`handleCreateSession`, as a standalone function of one row. -/
def dedupHit (req : CreateSessionReq) (u : Session) : Bool :=
  u.nodeName == req.nodeName && u.tmuxPane == req.tmuxPane &&
    u.id != req.sessionID && u.stoppedAt == 0

theorem handleCreateSession_sessions_eq (st : ServerState) (req : CreateSessionReq)
    (now : Nat) (hpane : req.tmuxPane ≠ "") :
    (handleCreateSession st req now).1.sessions =
      (st.sessions.filter (fun u => u.id != req.sessionID)).map
        (fun u => if dedupHit req u then { u with stoppedAt := now } else u)
      ++ [newSessionOf req now] := by
  simp only [handleCreateSession, stopSessionsByPane, createSession, dedupHit,
    bne_iff_ne, ne_eq, hpane, not_false_eq_true, if_true, List.map_append,
    List.map_cons, List.map_nil, newSessionOf]
  simp

/-- C4: after `handleCreateSession` on a non-empty pane, the new session
is present and active; a pre-existing active session on the same
(node, pane) is marked stopped at `now`; a pre-existing session that is
on another node or pane, or already stopped, is untouched; and the new
session is the only active session left on that (node, pane). -/
theorem c4_same_pane_dedup (st : ServerState) (req : CreateSessionReq) (now : Nat)
    (s : Session) (hnow : now ≠ 0) (hpane : req.tmuxPane ≠ "")
    (hs : s ∈ st.sessions) (hid : s.id ≠ req.sessionID) :
    (newSessionOf req now ∈ (handleCreateSession st req now).1.sessions ∧
      (newSessionOf req now).stoppedAt = 0) ∧
    (s.nodeName = req.nodeName → s.tmuxPane = req.tmuxPane → s.stoppedAt = 0 →
      { s with stoppedAt := now } ∈ (handleCreateSession st req now).1.sessions) ∧
    (¬(s.nodeName = req.nodeName ∧ s.tmuxPane = req.tmuxPane ∧ s.stoppedAt = 0) →
      s ∈ (handleCreateSession st req now).1.sessions) ∧
    (∀ t ∈ (handleCreateSession st req now).1.sessions, t.stoppedAt = 0 →
      t.nodeName = req.nodeName → t.tmuxPane = req.tmuxPane → t.id = req.sessionID) := by
  rw [handleCreateSession_sessions_eq st req now hpane]
  have hfil : s ∈ st.sessions.filter (fun u => u.id != req.sessionID) :=
    List.mem_filter.mpr ⟨hs, by simp [hid]⟩
  refine ⟨⟨?_, rfl⟩, ?_, ?_, ?_⟩
  · exact List.mem_append_right _ (List.mem_singleton.mpr rfl)
  · intro hn hp h0
    refine List.mem_append_left _ (List.mem_map.mpr ⟨s, hfil, ?_⟩)
    have hc : dedupHit req s = true := by
      simp [dedupHit, hn, hp, h0, hid]
    rw [hc]
    simp
  · intro hnc
    refine List.mem_append_left _ (List.mem_map.mpr ⟨s, hfil, ?_⟩)
    have hc : dedupHit req s = false := by
      by_contra hcc
      rw [Bool.not_eq_false] at hcc
      simp only [dedupHit, Bool.and_eq_true, beq_iff_eq, bne_iff_ne] at hcc
      exact hnc ⟨hcc.1.1.1, hcc.1.1.2, hcc.2⟩
    rw [hc]
    simp
  · intro t ht h0 hn hp
    rcases List.mem_append.mp ht with htm | htm
    · obtain ⟨u, hu, hfu⟩ := List.mem_map.mp htm
      have hu2 := List.mem_filter.mp hu
      by_cases hc : dedupHit req u = true
      · rw [hc] at hfu
        simp only [if_pos rfl] at hfu
        rw [← hfu] at h0
        exact absurd h0 hnow
      · have hc2 : dedupHit req u = false := by simpa using hc
        rw [hc2] at hfu
        simp at hfu
        exfalso
        apply hc
        rw [hfu]
        simp only [dedupHit, Bool.and_eq_true, beq_iff_eq, bne_iff_ne]
        refine ⟨⟨⟨hn, hp⟩, ?_⟩, h0⟩
        have := hu2.2
        rw [hfu] at this
        simpa using this
    · have := List.mem_singleton.mp htm
      rw [this]
      rfl

/-- The pre-existing active session of the C4 witness. -/
def c4A : Session :=
  { id := "sA", tmuxPane := "%5", cwd := "/p", project := "p", nodeName := "n",
    startedAt := 1, stoppedAt := 0, lastActivityAt := 1,
    notificationType := "", notifyTitle := "", notifyMessage := "", notifiedAt := 0 }

def c4St : ServerState := { sessions := [c4A], agents := [], published := [] }

/-- Session B registering on the same (node, pane) as `c4A`. -/
def c4Req : CreateSessionReq :=
  { sessionID := "sB", tmuxPane := "%5", cwd := "/p", nodeName := "n" }

theorem c4_witness :
    (newSessionOf c4Req 2 ∈ (handleCreateSession c4St c4Req 2).1.sessions ∧
      (newSessionOf c4Req 2).stoppedAt = 0) ∧
    (c4A.nodeName = c4Req.nodeName → c4A.tmuxPane = c4Req.tmuxPane → c4A.stoppedAt = 0 →
      { c4A with stoppedAt := 2 } ∈ (handleCreateSession c4St c4Req 2).1.sessions) ∧
    (¬(c4A.nodeName = c4Req.nodeName ∧ c4A.tmuxPane = c4Req.tmuxPane ∧
        c4A.stoppedAt = 0) →
      c4A ∈ (handleCreateSession c4St c4Req 2).1.sessions) ∧
    (∀ t ∈ (handleCreateSession c4St c4Req 2).1.sessions, t.stoppedAt = 0 →
      t.nodeName = c4Req.nodeName → t.tmuxPane = c4Req.tmuxPane →
      t.id = c4Req.sessionID) :=
  c4_same_pane_dedup c4St c4Req 2 c4A (by decide) (by decide) (by decide) (by decide)

/-- The list of session ids `reconcileSessions` decides to stop (named
here to state its characterization). -/
def reconcileToStop (db : List Session) (node : String) (alive : List String) :
    List String :=
  ((listActiveSessionsByNode db node).filter
    (fun s => s.tmuxPane != "" && !alive.contains s.tmuxPane)).map (fun s => s.id)

theorem reconcileSessions_eq (st : ServerState) (node : String) (alive : List String)
    (now : Nat) :
    reconcileSessions st node alive now =
      if (reconcileToStop st.sessions node alive).isEmpty then st
      else { st with
        sessions := stopSessions st.sessions (reconcileToStop st.sessions node alive) now,
        published := st.published ++ (reconcileToStop st.sessions node alive).map
          (fun id => { type := "session_end", session := id }) } := rfl

theorem mem_listActiveSessionsByNode (db : List Session) (node : String) (s : Session) :
    s ∈ listActiveSessionsByNode db node ↔
      s ∈ db ∧ s.stoppedAt = 0 ∧ s.nodeName = node := by
  unfold listActiveSessionsByNode
  rw [mem_sortDescBy, List.mem_filter]
  simp [Bool.and_eq_true, and_assoc]

theorem mem_reconcileToStop_of (db : List Session) (node : String) (alive : List String)
    (s : Session) (hs : s ∈ db) (h0 : s.stoppedAt = 0) (hn : s.nodeName = node)
    (hp : s.tmuxPane ≠ "") (hna : s.tmuxPane ∉ alive) :
    s.id ∈ reconcileToStop db node alive :=
  List.mem_map.mpr ⟨s, List.mem_filter.mpr
    ⟨(mem_listActiveSessionsByNode _ _ _).mpr ⟨hs, h0, hn⟩, by simp [hp, hna]⟩, rfl⟩

theorem not_mem_reconcileToStop (db : List Session) (node : String) (alive : List String)
    (s : Session) (hnodup : (db.map (fun t => t.id)).Nodup) (hs : s ∈ db)
    (h : s.nodeName ≠ node ∨ s.stoppedAt ≠ 0 ∨ s.tmuxPane = "" ∨ s.tmuxPane ∈ alive) :
    s.id ∉ reconcileToStop db node alive := by
  intro hmem
  obtain ⟨t, htf, htid⟩ := List.mem_map.mp hmem
  have h1 := List.mem_filter.mp htf
  have h2 := (mem_listActiveSessionsByNode _ _ _).mp h1.1
  have hpt := h1.2
  simp only [Bool.and_eq_true, bne_iff_ne, ne_eq, Bool.not_eq_true'] at hpt
  have hts : t = s := List.inj_on_of_nodup_map hnodup h2.1 hs htid
  subst hts
  rcases h with h | h | h | h
  · exact h h2.2.2
  · exact h h2.2.1
  · exact hpt.1 h
  · exact absurd h (by simpa using hpt.2)

/-- C5: reconciliation with a present alive-panes set stops (and
publishes session_end for) exactly the active sessions of the node whose
pane is non-empty and missing from the set; a session that is on a
different node, already stopped, without pane info, or whose pane is
alive, is untouched; and a registration without the alive-panes field
leaves every session unchanged. -/
theorem c5_reconcile_exact (st : ServerState) (node url : String) (alive : List String)
    (now : Nat) (s : Session)
    (hnodup : (st.sessions.map (fun t => t.id)).Nodup) (hs : s ∈ st.sessions) :
    (s.stoppedAt = 0 → s.nodeName = node → s.tmuxPane ≠ "" → s.tmuxPane ∉ alive →
      { s with stoppedAt := now } ∈ (reconcileSessions st node alive now).sessions ∧
      ({ type := "session_end", session := s.id } : EventMsg) ∈
        (reconcileSessions st node alive now).published) ∧
    ((s.nodeName ≠ node ∨ s.stoppedAt ≠ 0 ∨ s.tmuxPane = "" ∨ s.tmuxPane ∈ alive) →
      s ∈ (reconcileSessions st node alive now).sessions) ∧
    (handleAgentRegister st { nodeName := node, url := url, alivePanes := none }
      now).1.sessions = st.sessions := by
  refine ⟨?_, ?_, rfl⟩
  · intro h0 hn hp hna
    have hsid : s.id ∈ reconcileToStop st.sessions node alive :=
      mem_reconcileToStop_of st.sessions node alive s hs h0 hn hp hna
    have hemp : ¬((reconcileToStop st.sessions node alive).isEmpty = true) := by
      simp only [List.isEmpty_iff]
      exact List.ne_nil_of_mem hsid
    rw [reconcileSessions_eq, if_neg hemp]
    constructor
    · show { s with stoppedAt := now } ∈
        stopSessions st.sessions (reconcileToStop st.sessions node alive) now
      refine List.mem_map.mpr ⟨s, hs, ?_⟩
      have hcond : ((reconcileToStop st.sessions node alive).contains s.id &&
          s.stoppedAt == 0) = true := by
        simp [hsid, h0]
      rw [hcond]
      simp
    · exact List.mem_append_right _ (List.mem_map.mpr ⟨s.id, hsid, rfl⟩)
  · intro hdisj
    have hnot : s.id ∉ reconcileToStop st.sessions node alive :=
      not_mem_reconcileToStop st.sessions node alive s hnodup hs hdisj
    rw [reconcileSessions_eq]
    by_cases hemp : (reconcileToStop st.sessions node alive).isEmpty = true
    · rw [if_pos hemp]; exact hs
    · rw [if_neg hemp]
      show s ∈ stopSessions st.sessions (reconcileToStop st.sessions node alive) now
      refine List.mem_map.mpr ⟨s, hs, ?_⟩
      have hcond : ((reconcileToStop st.sessions node alive).contains s.id &&
          s.stoppedAt == 0) = false := by
        simp [hnot]
      rw [hcond]
      simp

/-- The three active sessions of the C5 witness node, on panes `%0`,
`%1`, `%2`. -/
def c5P0 : Session :=
  { id := "p0", tmuxPane := "%0", cwd := "/a", project := "a", nodeName := "n",
    startedAt := 1, stoppedAt := 0, lastActivityAt := 1,
    notificationType := "", notifyTitle := "", notifyMessage := "", notifiedAt := 0 }

def c5P1 : Session :=
  { id := "p1", tmuxPane := "%1", cwd := "/a", project := "a", nodeName := "n",
    startedAt := 2, stoppedAt := 0, lastActivityAt := 2,
    notificationType := "", notifyTitle := "", notifyMessage := "", notifiedAt := 0 }

def c5P2 : Session :=
  { id := "p2", tmuxPane := "%2", cwd := "/a", project := "a", nodeName := "n",
    startedAt := 3, stoppedAt := 0, lastActivityAt := 3,
    notificationType := "", notifyTitle := "", notifyMessage := "", notifiedAt := 0 }

def c5St : ServerState :=
  { sessions := [c5P0, c5P1, c5P2], agents := [], published := [] }

theorem c5_witness :
    (c5P1.stoppedAt = 0 → c5P1.nodeName = "n" → c5P1.tmuxPane ≠ "" →
      c5P1.tmuxPane ∉ ["%0"] →
      { c5P1 with stoppedAt := 7 } ∈ (reconcileSessions c5St "n" ["%0"] 7).sessions ∧
      ({ type := "session_end", session := c5P1.id } : EventMsg) ∈
        (reconcileSessions c5St "n" ["%0"] 7).published) ∧
    ((c5P1.nodeName ≠ "n" ∨ c5P1.stoppedAt ≠ 0 ∨ c5P1.tmuxPane = "" ∨
        c5P1.tmuxPane ∈ ["%0"]) →
      c5P1 ∈ (reconcileSessions c5St "n" ["%0"] 7).sessions) ∧
    (handleAgentRegister c5St { nodeName := "n", url := "http://a", alivePanes := none }
      7).1.sessions = c5St.sessions :=
  c5_reconcile_exact c5St "n" "http://a" ["%0"] 7 c5P1 (by decide) (by decide)

/-- C10: a session whose pane identifier is empty is never auto-stopped:
reconciliation leaves it in the store unchanged whatever the alive set,
and a session registration whose own pane is empty runs no dedup — every
other session survives unchanged and the only event published is the
session_start of the new session. -/
theorem c10_empty_pane_never_auto_stopped (st : ServerState) (node : String)
    (alive : List String) (now : Nat) (req : CreateSessionReq) (s : Session)
    (hnodup : (st.sessions.map (fun t => t.id)).Nodup)
    (hs : s ∈ st.sessions) (hpane : s.tmuxPane = "") (hreq : req.tmuxPane = "") :
    s ∈ (reconcileSessions st node alive now).sessions ∧
    (s.id ≠ req.sessionID → s ∈ (handleCreateSession st req now).1.sessions) ∧
    (handleCreateSession st req now).1.published =
      st.published ++ [{ type := "session_start", session := req.sessionID }] := by
  have hbranch : (req.tmuxPane != "") = false := by simp [hreq]
  refine ⟨?_, ?_, ?_⟩
  · have hnot : s.id ∉ reconcileToStop st.sessions node alive :=
      not_mem_reconcileToStop st.sessions node alive s hnodup hs
        (Or.inr (Or.inr (Or.inl hpane)))
    rw [reconcileSessions_eq]
    by_cases hemp : (reconcileToStop st.sessions node alive).isEmpty = true
    · rw [if_pos hemp]; exact hs
    · rw [if_neg hemp]
      show s ∈ stopSessions st.sessions (reconcileToStop st.sessions node alive) now
      refine List.mem_map.mpr ⟨s, hs, ?_⟩
      have hcond : ((reconcileToStop st.sessions node alive).contains s.id &&
          s.stoppedAt == 0) = false := by
        simp [hnot]
      rw [hcond]
      simp
  · intro hidne
    show s ∈ (handleCreateSession st req now).1.sessions
    simp only [handleCreateSession, hbranch, Bool.false_eq_true, if_false]
    exact List.mem_append_left _
      (List.mem_filter.mpr ⟨hs, by simp [newSessionOf, hidne]⟩)
  · simp only [handleCreateSession, hbranch, Bool.false_eq_true, if_false]

/-- The pane-less active session of the C10 witness. -/
def c10S : Session :=
  { id := "nopane", tmuxPane := "", cwd := "/c", project := "c", nodeName := "n",
    startedAt := 1, stoppedAt := 0, lastActivityAt := 1,
    notificationType := "", notifyTitle := "", notifyMessage := "", notifiedAt := 0 }

def c10St : ServerState := { sessions := [c10S], agents := [], published := [] }

/-- A registration whose own pane is empty. -/
def c10Req : CreateSessionReq :=
  { sessionID := "newS", tmuxPane := "", cwd := "/c", nodeName := "n" }

theorem c10_witness :
    c10S ∈ (reconcileSessions c10St "n" ["%9"] 4).sessions ∧
    (c10S.id ≠ c10Req.sessionID →
      c10S ∈ (handleCreateSession c10St c10Req 4).1.sessions) ∧
    (handleCreateSession c10St c10Req 4).1.published =
      c10St.published ++ [{ type := "session_start", session := c10Req.sessionID }] :=
  c10_empty_pane_never_auto_stopped c10St "n" ["%9"] 4 c10Req c10S
    (by decide) (by decide) (by decide) (by decide)
